import Mathlib

/-!
Verification of the ESP8266 AT-command driver (`src/esp8266_uart.py`).

Shallow embedding conventions:
- Python `bytes` and `str` values are both modelled as `List Char` (the driver
  only ever decodes UTF-8 text, and every byte it handles is ASCII).
- A raised Python exception is modelled as `Except.error`; a normal return as
  `Except.ok`.
- The UART transport seen by `_exec` is modelled as a list of poll
  observations: `none` means `uart.any()` reported no data for that poll,
  `some l` means a line `l` was returned by `readline()`.  Once the list is
  exhausted the transport reports no data for every remaining poll, so the
  loop can only sleep until its tick budget runs out and return unchanged;
  the definition short-circuits those trailing sleep iterations.
-/

/-- Byte strings and text strings of the driver, as lists of characters. -/
abbrev Str := List Char

/-- View of a Lean string literal as the embedding's string type. -/
def str (s : String) : Str := s.data

/-- Python whitespace characters, as recognised by `bytes.rstrip`, `str.strip`
and `int()`. -/
def isPySpace (c : Char) : Bool :=
  c = ' ' || c = '\t' || c = '\n' || c = '\r' || c.toNat = 11 || c.toNat = 12

/-- Python `s.rstrip()`: drop trailing whitespace. -/
def rstrip (s : Str) : Str := (s.reverse.dropWhile isPySpace).reverse

/-- Python `s.strip()`. -/
def pyStrip (s : Str) : Str := rstrip (s.dropWhile isPySpace)

/-- Python `s.replace('\r', '').replace('\n', '')`: removing every occurrence
of the two characters is the same as filtering them out. -/
def stripCRLF (s : Str) : Str := s.filter (fun c => !(c = '\r' || c = '\n'))

/-- Value of a run of decimal digits. -/
def digitsToNat (s : Str) : Nat := s.foldl (fun acc c => acc * 10 + (c.toNat - 48)) 0

/-- The digit run accepted by Python `int()` after sign handling. -/
def pyIntDigits (ds : Str) : Option Nat :=
  if ds ≠ [] ∧ ds.all Char.isDigit then some (digitsToNat ds) else none

/-- Python `int(s)` on a string: surrounding whitespace is allowed, then an
optional sign and at least one decimal digit.  `none` models the raised
`ValueError`. -/
def pyInt (s : Str) : Option Int :=
  match pyStrip s with
  | '-' :: ds => (pyIntDigits ds).map (fun n => -(n : Int))
  | '+' :: ds => (pyIntDigits ds).map (fun n => (n : Int))
  | ds => (pyIntDigits ds).map (fun n => (n : Int))

/-- Whether `s` starts with `sub`. -/
def strStartsWith : Str → Str → Bool
  | [], _ => true
  | _ :: _, [] => false
  | a :: as, b :: bs => (a == b) && strStartsWith as bs

/-- Index (counting from `i`) of the first occurrence of `sub` in `s`. -/
def pyFindAux (sub : Str) : Str → Nat → Option Nat
  | [], i => if sub = [] then some i else none
  | c :: rest, i =>
    if strStartsWith sub (c :: rest) then some i else pyFindAux sub rest (i + 1)

/-- Python `s.find(sub)`: index of the first occurrence, or -1. -/
def pyFind (s sub : Str) : Int :=
  match pyFindAux sub s 0 with
  | some n => (n : Int)
  | none => -1

/-- Normalisation of a Python slice or search index against a length:
negative indices count from the end, out-of-range indices clamp. -/
def sliceNorm (len : Nat) (k : Int) : Nat :=
  if k < 0 then ((len : Int) + k).toNat else min k.toNat len

/-- Python `s.find(sub, start)`. -/
def pyFindFrom (s sub : Str) (start : Int) : Int :=
  let st := sliceNorm s.length start
  match pyFindAux sub (s.drop st) 0 with
  | some n => ((st + n : Nat) : Int)
  | none => -1

/-- Python `s[i:j]`. -/
def pySlice (s : Str) (i j : Int) : Str :=
  let a := sliceNorm s.length i
  let b := sliceNorm s.length j
  (s.drop a).take (b - a)

/-- Python `s[i:]`. -/
def pySliceToEnd (s : Str) (i : Int) : Str := s.drop (sliceNorm s.length i)

/-- Python `s.split(sep)` for a single-character separator. -/
def splitChar (sep : Char) : Str → List Str
  | [] => [[]]
  | c :: rest =>
    if c = sep then [] :: splitChar sep rest
    else
      match splitChar sep rest with
      | [] => [[c]]
      | h :: t => (c :: h) :: t

/-- Python `s.split(sep, 1)` for a single-character separator. -/
def splitOnce (sep : Char) : Str → List Str
  | [] => [[]]
  | c :: rest =>
    if c = sep then [[], rest]
    else
      match splitOnce sep rest with
      | [] => [[c]]
      | h :: t => (c :: h) :: t

/-- The polling loop of `_exec` (lines 539-554): `acc` is the match token (or
`None`), the `Nat` is the remaining tick budget, the events list is the
transport (see the header comment), then the accumulated result list and the
`ok` flag.  A line trimming to `b'OK'` sets `ok`; a line trimming to the
match token returns immediately; every other non-empty line is appended.  An
empty line hits the `continue`, which consumes no tick. -/
def execLoop (acc : Option Str) : Nat → List (Option Str) → List Str → Bool → List Str × Bool
  | _, [], result, ok => (result, ok)
  | 0, _, result, ok => (result, ok)
  | t + 1, none :: es, result, ok => execLoop acc t es result ok
  | t + 1, some l :: es, result, ok =>
    if l = [] then execLoop acc (t + 1) es result ok
    else
      let ok2 := if rstrip l = str "OK" then true else ok
      match acc with
      | some a =>
        if rstrip l = a then (result, ok2)
        else execLoop acc t es (result ++ [l]) ok2
      | none => execLoop acc t es (result ++ [l]) ok2

/-- Tick budget of `_exec` (lines 536-538): `int(timeout / 100)`, but at
least 1. -/
def ticksOf (timeout : Nat) : Nat := max 1 (timeout / 100)

/-- Result of one `_exec` call: the bytes written to the UART, the collected
payload lines, and the success flag. -/
structure ExecResult where
  written : Str
  lines : List Str
  ok : Bool
deriving DecidableEq

/-- `_exec` (lines 523-556): append CR LF to the command, write it, then run
the polling loop with an empty result list and `ok = False`.  The function is
total: a timeout is returned as data, never raised. -/
def execAT (cmd : Str) (acc : Option Str) (timeout : Nat)
    (events : List (Option Str)) : ExecResult :=
  let r := execLoop acc (ticksOf timeout) events [] false
  { written := cmd ++ str "\r\n", lines := r.1, ok := r.2 }

/-- The lines the `_exec` loop consumes from a stream of non-empty lines:
everything up to and including the first line trimming to the match token
(all of them if the token never appears). -/
def upToTokenIncl (a : Str) : List Str → List Str
  | [] => []
  | l :: ls => if rstrip l = a then [l] else l :: upToTokenIncl a ls

/-- Decimal digits of a natural number; the fuel dominates the number of
digits, so the fuel-exhaustion branch is unreachable from `natToStr`. -/
def natToStrAux : Nat → Nat → Str
  | 0, _ => []
  | fuel + 1, n =>
    if n < 10 then [Char.ofNat (48 + n)]
    else natToStrAux fuel (n / 10) ++ [Char.ofNat (48 + n % 10)]

/-- Python `str(n)` for an integer: decimal form with a leading minus sign
when negative. -/
def intToStr (n : Int) : Str :=
  if n < 0 then '-' :: natToStrAux (-n).toNat.succ (-n).toNat
  else natToStrAux n.toNat.succ n.toNat

/-- The runtime type cases `_joinArgs` dispatches on (lines 561-569):
text, byte string, boolean, number, and `None`. -/
inductive PyVal where
  | pstr (s : Str)
  | pbytes (b : Str)
  | pbool (b : Bool)
  | pint (n : Int)
  | pnone
deriving DecidableEq

/-- Per-argument encoding of `_joinArgs` (lines 560-570): strings are
wrapped in double quotes with no escaping, bytes are decoded as-is, booleans
become `str(int(b))`, other non-`None` values take `str(arg)`, and `None`
contributes nothing (`none`). -/
def encArg : PyVal → Option Str
  | .pstr s => some ('"' :: s ++ ['"'])
  | .pbytes b => some b
  | .pbool b => some (if b then str "1" else str "0")
  | .pint n => some (intToStr n)
  | .pnone => none

/-- Python `','.join(parts)`. -/
def joinWithComma : List Str → Str
  | [] => []
  | [x] => x
  | x :: xs => x ++ ',' :: joinWithComma xs

/-- `_joinArgs` (lines 558-571): encode each argument, dropping `None`, and
join the encoded fields with commas. -/
def joinArgs (args : List PyVal) : Str := joinWithComma (args.filterMap encArg)

/-- `startServer` (lines 355-368), modelling the argument validation and the
sequence of AT commands it writes, in order; `Except.error` models a raised
exception, `Except.ok` the list of commands written (the transaction
outcomes themselves are irrelevant to the validation behaviour).  The two
guards are the literal translation of the Python chained comparisons
`1 > maxAllowedConnections > 5` and `0 > tcpTimeout > 7200`. -/
def startServer (port maxAllowedConnections tcpTimeout : Int) : Except Str (List Str) :=
  if 1 > maxAllowedConnections ∧ maxAllowedConnections > 5 then
    Except.error (str "Max Allowed TCP Connection must be between 1 and 5")
  else if 0 > tcpTimeout ∧ tcpTimeout > 7200 then
    Except.error (str "Max TCP Timeout must be between 0 and 7200 seconds")
  else
    Except.ok [str "AT+CIPMUX=1",
               str "AT+CIPSERVERMAXCONN=" ++ intToStr maxAllowedConnections,
               str "AT+CIPSERVER=1," ++ intToStr port,
               str "AT+CIPSTO=" ++ intToStr tcpTimeout]

/-- `receiveData` (lines 491-509).  The argument is the raw chunk returned
by `uart.read()` (`none` when the read returned `None`).  `Except.ok none`
models the `(None, None)` return, `Except.ok (some (id, payload))` a parsed
frame, and `Except.error ()` an uncaught exception from `int()`.  Note the
source computes `n3 = data.find(':')` from offset 0, not from the marker. -/
def receiveData (data : Option Str) : Except Unit (Option (Int × Str)) :=
  match data with
  | none => Except.ok none
  | some d =>
    if pyFind d (str "+IPD") ≥ 0 then
      let n1 := pyFind d (str "+IPD,")
      let n2 := pyFindFrom d (str ":") (n1 + 5)
      match pyInt (pySlice d (n1 + 5) n2) with
      | none => Except.error ()
      | some idv =>
        let n3 := pyFind d (str ":")
        let body := pySliceToEnd d (n3 + 1)
        let body2 := if (str "CLOSED").isSuffixOf body then pySlice body 0 (-6) else body
        Except.ok (some (idv, body2))
    else Except.ok none

/-- Outcomes of `_parseConnection`: the Python returns `False` (no success
or a `No AP` line), `None` (fell through the loop without a matching line),
or the connection dictionary. -/
inductive ConnResult where
  | pyFalse
  | pyNone
  | record (ssid bssid : Str) (channel rssi : Int)
deriving DecidableEq

/-- The response-scanning loop of `_parseConnection` (lines 152-164): a line
containing `No AP` returns `False`; the first line starting with the query
prefix is stripped of CR/LF, split once on `:`, the remainder split on
commas, and positions 0-3 become ssid, bssid, `int(channel)`, `int(rssi)`.
`Except.error` models an uncaught `IndexError`/`ValueError`. -/
def parseConnectionLoop (q : Str) : List Str → Except Unit ConnResult
  | [] => Except.ok ConnResult.pyNone
  | line :: rest =>
    if pyFind line (str "No AP") > -1 then Except.ok ConnResult.pyFalse
    else if pyFind line q = 0 then
      match (splitOnce ':' (stripCRLF line)).get? 1 with
      | none => Except.error ()
      | some conn =>
        let details := splitChar ',' conn
        match details.get? 0, details.get? 1, details.get? 2, details.get? 3 with
        | some d0, some d1, some d2, some d3 =>
          match pyInt d2, pyInt d3 with
          | some ch, some rs => Except.ok (ConnResult.record d0 d1 ch rs)
          | _, _ => Except.error ()
        | _, _, _, _ => Except.error ()
    else parseConnectionLoop q rest

/-- `_parseConnection` (lines 148-164). -/
def parseConnection (ok : Bool) (response : List Str) (q : Str) : Except Unit ConnResult :=
  if !ok then Except.ok ConnResult.pyFalse else parseConnectionLoop q response

/-- The example response of the connection-decoder claim. -/
def c5Lines : List Str :=
  [str "+CWJAP_CUR:\"MySSID\",\"aa:bb:cc:dd:ee:ff\",6,-42\r\n", str "OK\r\n"]

/-- The SoftAP configuration dictionary of `getApConfig` /
`getDefaultApConfig`. -/
structure ApConfig where
  ssid : Str
  password : Str
  channel : Int
  ecn : Int
  maxConn : Int
  hidden : Bool
deriving DecidableEq

/-- Field decoding of `getApConfig` (lines 315-322): positional split into
at least 6 comma-fields (fewer raises `IndexError`), `int()` on fields 2-4,
and `hidden := bool(details[5])`, i.e. true iff the sixth field is
non-empty. -/
def decodeSapCur (details : List Str) : Except Unit (Option ApConfig) :=
  match details with
  | d0 :: d1 :: d2 :: d3 :: d4 :: d5 :: _ =>
    (match pyInt d2, pyInt d3, pyInt d4 with
     | some ch, some e, some mx => Except.ok (some ⟨d0, d1, ch, e, mx, !d5.isEmpty⟩)
     | _, _, _ => Except.error ())
  | _ => Except.error ()

/-- Field decoding of `getDefaultApConfig` (lines 336-343): identical to
the current variant except `hidden := not bool(details[5])`, i.e. true iff
the sixth field is empty. -/
def decodeSapDef (details : List Str) : Except Unit (Option ApConfig) :=
  match details with
  | d0 :: d1 :: d2 :: d3 :: d4 :: d5 :: _ =>
    (match pyInt d2, pyInt d3, pyInt d4 with
     | some ch, some e, some mx => Except.ok (some ⟨d0, d1, ch, e, mx, d5.isEmpty⟩)
     | _, _, _ => Except.error ())
  | _ => Except.error ()

/-- The line scan of `getApConfig` (lines 309-322). -/
def apConfigCurLoop : List Str → Except Unit (Option ApConfig)
  | [] => Except.ok none
  | line :: rest =>
    if pyFind line (str "+CWSAP_CUR:") = 0 then
      match (splitOnce ':' (stripCRLF line)).get? 1 with
      | none => Except.error ()
      | some config => decodeSapCur (splitChar ',' config)
    else apConfigCurLoop rest

/-- The line scan of `getDefaultApConfig` (lines 330-343). -/
def apConfigDefLoop : List Str → Except Unit (Option ApConfig)
  | [] => Except.ok none
  | line :: rest =>
    if pyFind line (str "+CWSAP_DEF:") = 0 then
      match (splitOnce ':' (stripCRLF line)).get? 1 with
      | none => Except.error ()
      | some config => decodeSapDef (splitChar ',' config)
    else apConfigDefLoop rest

/-- `getApConfig` (lines 303-322) given `(ok, response)` from `_exec`. -/
def getApConfig (ok : Bool) (response : List Str) : Except Unit (Option ApConfig) :=
  if !ok then Except.ok none else apConfigCurLoop response

/-- `getDefaultApConfig` (lines 324-343) given `(ok, response)`. -/
def getDefaultApConfig (ok : Bool) (response : List Str) : Except Unit (Option ApConfig) :=
  if !ok then Except.ok none else apConfigDefLoop response

theorem execLoop_nil (acc : Option Str) (t : Nat) (res : List Str) (ok : Bool) :
    execLoop acc t [] res ok = (res, ok) := by
  cases t <;> rfl

theorem execLoop_cons_line (a l : Str) (t : Nat) (es : List (Option Str))
    (res : List Str) (ok : Bool) (hl : l ≠ []) :
    execLoop (some a) (t + 1) (some l :: es) res ok
      = (if rstrip l = a then (res, if rstrip l = str "OK" then true else ok)
         else execLoop (some a) t es (res ++ [l])
                (if rstrip l = str "OK" then true else ok)) := by
  simp [execLoop, hl]

theorem upToTokenIncl_cons (a l : Str) (ls : List Str) :
    upToTokenIncl a (l :: ls)
      = if rstrip l = a then [l] else l :: upToTokenIncl a ls := rfl

/-- On a stream of non-empty lines that all arrive within the tick budget,
the success flag of the `_exec` loop is the initial flag or-ed with whether a
line trimming to `b'OK'` occurs among the consumed lines. -/
theorem execLoop_ok_char (a : Str) :
    ∀ (lines : List Str) (t : Nat) (res : List Str) (ok : Bool),
      (∀ l ∈ lines, l ≠ []) → lines.length ≤ t →
      (execLoop (some a) t (lines.map some) res ok).2
        = (ok || (upToTokenIncl a lines).any (fun l => rstrip l == str "OK")) := by
  intro lines
  induction lines with
  | nil => intro t res ok _ _; simp [execLoop_nil, upToTokenIncl]
  | cons l ls ih =>
    intro t res ok hne hlen
    match t with
    | 0 => simp at hlen
    | t + 1 =>
      have hl : l ≠ [] := hne l (by simp)
      have hlen' : ls.length ≤ t := by simpa using hlen
      have hne' : ∀ x ∈ ls, x ≠ [] := fun x hx => hne x (by simp [hx])
      rw [List.map_cons, execLoop_cons_line a l t (ls.map some) res ok hl,
        upToTokenIncl_cons]
      by_cases htok : rstrip l = a
      · rw [if_pos htok, if_pos htok]
        by_cases hOK : rstrip l = str "OK"
        · rw [if_pos hOK]; simp [hOK]
        · rw [if_neg hOK]; simp [hOK]
      · rw [if_neg htok, if_neg htok]
        by_cases hOK : rstrip l = str "OK"
        · rw [if_pos hOK, ih t (res ++ [l]) true hne' hlen']
          simp [hOK]
        · rw [if_neg hOK, ih t (res ++ [l]) ok hne' hlen']
          have hb : (rstrip l == str "OK") = false := beq_eq_false_iff_ne.mpr hOK
          simp [hb]

theorem execLoop_no_token_in_result (a : Str) :
    ∀ (events : List (Option Str)) (t : Nat) (res : List Str) (ok : Bool),
      (∀ l ∈ res, rstrip l ≠ a) →
      ∀ l ∈ (execLoop (some a) t events res ok).1, rstrip l ≠ a := by
  intro events
  induction events with
  | nil => intro t res ok hres; simpa [execLoop_nil] using hres
  | cons e es ih =>
    intro t res ok hres
    match t with
    | 0 =>
      have : execLoop (some a) 0 (e :: es) res ok = (res, ok) := rfl
      simpa [this] using hres
    | t + 1 =>
      match e with
      | none =>
        have : execLoop (some a) (t + 1) (none :: es) res ok
            = execLoop (some a) t es res ok := rfl
        rw [this]; exact ih t res ok hres
      | some l =>
        by_cases hl : l = []
        · subst hl
          have hstep : execLoop (some a) (t + 1) (some [] :: es) res ok
              = execLoop (some a) (t + 1) es res ok := by simp [execLoop]
          rw [hstep]; exact ih (t + 1) res ok hres
        · rw [execLoop_cons_line a l t es res ok hl]
          by_cases htok : rstrip l = a
          · rw [if_pos htok]; simpa using hres
          · have hres' : ∀ x ∈ res ++ [l], rstrip x ≠ a := by
              intro x hx
              rcases List.mem_append.mp hx with h | h
              · exact hres x h
              · simp only [List.mem_singleton] at h
                subst h; exact htok
            rw [if_neg htok]
            exact ih t (res ++ [l]) _ hres'

theorem execLoop_timeout (a : Str) :
    ∀ (events : List (Option Str)) (t : Nat) (res : List Str),
      events.length ≤ t →
      (∀ l ∈ events.filterMap id, l ≠ [] ∧ rstrip l ≠ str "OK" ∧ rstrip l ≠ a) →
      execLoop (some a) t events res false = (res ++ events.filterMap id, false) := by
  intro events
  induction events with
  | nil => intro t res _ _; simp [execLoop_nil]
  | cons e es ih =>
    intro t res hlen hlines
    match t with
    | 0 => simp at hlen
    | t + 1 =>
      have hlen' : es.length ≤ t := by simpa using hlen
      match e with
      | none =>
        have hstep : execLoop (some a) (t + 1) (none :: es) res false
            = execLoop (some a) t es res false := rfl
        have hlines' : ∀ l ∈ es.filterMap id, l ≠ [] ∧ rstrip l ≠ str "OK" ∧ rstrip l ≠ a := by
          intro l hld; exact hlines l (by simpa using hld)
        rw [hstep, ih t res hlen' hlines']
        simp
      | some l =>
        have hme : l ∈ (some l :: es).filterMap id := by simp
        obtain ⟨hl, hOK, htok⟩ := hlines l hme
        have hlines' : ∀ x ∈ es.filterMap id, x ≠ [] ∧ rstrip x ≠ str "OK" ∧ rstrip x ≠ a := by
          intro x hxd; exact hlines x (by simp [hxd])
        rw [execLoop_cons_line a l t es res false hl, if_neg htok, if_neg hOK,
          ih t (res ++ [l]) hlen' hlines']
        simp

/-- C1 (counterexample): a transaction whose stream delivers exactly the
match-token line (here the disconnect notice), and never `b'OK'`, returns
`success = false` — the claimed iff would demand `true`. -/
theorem c1Counterexample :
    rstrip (str "WIFI DISCONNECT\r\n") = str "WIFI DISCONNECT" ∧
    (execAT (str "AT+CWQAP") (some (str "WIFI DISCONNECT")) 1000
        [some (str "WIFI DISCONNECT\r\n")]).ok = false := by
  decide

/-- C1 (amended): the success flag of `_exec` is true iff some line whose
trimmed form equals `b'OK'` was read among the lines the loop consumed (up
to and including the first match-token line); a line equal only to the match
token terminates the transaction but does not itself set the flag. -/
theorem c1Amended (cmd a : Str) (timeout : Nat) (lines : List Str)
    (hne : ∀ l ∈ lines, l ≠ []) (hlen : lines.length ≤ ticksOf timeout) :
    (execAT cmd (some a) timeout (lines.map some)).ok
      = (upToTokenIncl a lines).any (fun l => rstrip l == str "OK") := by
  have h := execLoop_ok_char a lines (ticksOf timeout) [] false hne hlen
  simpa [execAT] using h

theorem c1AmendedWitness :
    (execAT (str "AT+RST") (some (str "ready")) 10000 ([str "ready\r\n"].map some)).ok
      = (upToTokenIncl (str "ready") [str "ready\r\n"]).any (fun l => rstrip l == str "OK") :=
  c1Amended (str "AT+RST") (str "ready") 10000 [str "ready\r\n"] (by decide) (by decide)

/-- C2 (counterexample): with match token `b'WIFI DISCONNECT'`, an incoming
`b'OK'` line is appended to the returned payload lines (while also setting
the success flag), contradicting the claim that it is excluded. -/
theorem c2Counterexample :
    str "OK\r\n" ∈ (execAT (str "AT+CWQAP") (some (str "WIFI DISCONNECT")) 2000
        [some (str "OK\r\n")]).lines ∧
    rstrip (str "OK\r\n") = str "OK" := by
  decide

/-- C2 (amended): the returned payload lines never contain a line whose
trimmed form equals the supplied match token; but a line trimming to `b'OK'`
is excluded only when the match token itself is `b'OK'` — when the token
differs, the `b'OK'` line is recorded in the success flag AND appended to
the returned lines. -/
theorem c2Amended :
    (∀ (cmd a : Str) (timeout : Nat) (events : List (Option Str)),
        ∀ l ∈ (execAT cmd (some a) timeout events).lines, rstrip l ≠ a)
    ∧ (execAT (str "AT+CWQAP") (some (str "WIFI DISCONNECT")) 2000
        [some (str "OK\r\n")]).lines = [str "OK\r\n"]
    ∧ (execAT (str "AT+CWQAP") (some (str "WIFI DISCONNECT")) 2000
        [some (str "OK\r\n")]).ok = true :=
  ⟨fun cmd a timeout events => by
      simpa [execAT] using
        execLoop_no_token_in_result a events (ticksOf timeout) [] false (by simp),
    by decide, by decide⟩

theorem c2AmendedWitness : rstrip (str "OK\r\n") ≠ str "ready" :=
  c2Amended.1 (str "AT") (str "ready") 2000 [some (str "OK\r\n")]
    (str "OK\r\n") (by decide)

/-- C7 (confirmed): when every line delivered before the tick budget runs
out is non-empty and trims neither to the match token nor to `b'OK'`,
`_exec` returns `success = false` together with all the collected payload
lines; the loop is a total function, so the timeout is surfaced as data and
no fault is raised. -/
theorem c7Confirmed (cmd a : Str) (timeout : Nat) (events : List (Option Str))
    (hlen : events.length ≤ ticksOf timeout)
    (hlines : ∀ l ∈ events.filterMap id, l ≠ [] ∧ rstrip l ≠ str "OK" ∧ rstrip l ≠ a) :
    execAT cmd (some a) timeout events
      = ⟨cmd ++ str "\r\n", events.filterMap id, false⟩ := by
  have h := execLoop_timeout a events (ticksOf timeout) [] hlen hlines
  simp [execAT, h]

theorem c7ConfirmedWitness :
    execAT (str "AT+RST") (some (str "ready")) 10000 [some (str "noise\r\n"), none]
      = ⟨str "AT+RST" ++ str "\r\n",
         List.filterMap id [some (str "noise\r\n"), none], false⟩ :=
  c7Confirmed (str "AT+RST") (str "ready") 10000 [some (str "noise\r\n"), none]
    (by decide) (by decide)

/-- C3 (code bug): both validation guards of `startServer` are Python
chained comparisons `1 > m > 5` and `0 > t > 7200`, which are unsatisfiable,
so no argument value ever raises: `startServer(80, 6, 30)` with the
out-of-range connection count 6 proceeds to write all four AT transactions,
and in general no exception is ever raised before writing. -/
theorem c3CodeBug :
    startServer 80 6 30
      = Except.ok [str "AT+CIPMUX=1", str "AT+CIPSERVERMAXCONN=6",
                   str "AT+CIPSERVER=1,80", str "AT+CIPSTO=30"]
    ∧ ∀ (port maxConn tcpTimeout : Int),
        startServer port maxConn tcpTimeout
          = Except.ok [str "AT+CIPMUX=1",
                       str "AT+CIPSERVERMAXCONN=" ++ intToStr maxConn,
                       str "AT+CIPSERVER=1," ++ intToStr port,
                       str "AT+CIPSTO=" ++ intToStr tcpTimeout] := by
  constructor
  · rfl
  · intro port maxConn tcpTimeout
    have h1 : ¬(1 > maxConn ∧ maxConn > 5) := by omega
    have h2 : ¬(0 > tcpTimeout ∧ tcpTimeout > 7200) := by omega
    simp [startServer, h1, h2]

/-- C4 (code bug): on a chunk where a `:` precedes the `+IPD,` marker, the
connection id is parsed correctly between the marker and the next `:`, but
the payload is taken after the FIRST `:` of the whole buffer
(`n3 = data.find(':')`), so it wrongly includes the marker text instead of
being exactly the bytes after the id delimiter (`hello`). -/
theorem c4CodeBug :
    receiveData (some (str "x:+IPD,0:hello"))
      = Except.ok (some (0, str "+IPD,0:hello"))
    ∧ str "+IPD,0:hello" ≠ str "hello" :=
  ⟨rfl, by decide⟩

/-- C8 (confirmed): `_joinArgs` joins the encoded fields with commas;
strings are quote-wrapped without escaping, bytes pass through, booleans
become 1/0, integers take their decimal form, and a `None` anywhere in the
argument list contributes no field at all; on the example
`("MySSID", "pwd", None, True)` the result is `"MySSID","pwd",1` with
exactly 3 comma-separated fields. -/
theorem c8Confirmed :
    (∀ (xs ys : List PyVal), joinArgs (xs ++ PyVal.pnone :: ys) = joinArgs (xs ++ ys))
    ∧ (∀ s : Str, joinArgs [PyVal.pstr s] = '"' :: s ++ ['"'])
    ∧ (∀ b : Str, joinArgs [PyVal.pbytes b] = b)
    ∧ joinArgs [PyVal.pbool true] = str "1"
    ∧ joinArgs [PyVal.pbool false] = str "0"
    ∧ (∀ n : Int, joinArgs [PyVal.pint n] = intToStr n)
    ∧ joinArgs [PyVal.pstr (str "MySSID"), PyVal.pstr (str "pwd"),
        PyVal.pnone, PyVal.pbool true] = str "\"MySSID\",\"pwd\",1"
    ∧ (splitChar ',' (joinArgs [PyVal.pstr (str "MySSID"), PyVal.pstr (str "pwd"),
        PyVal.pnone, PyVal.pbool true])).length = 3 := by
  refine ⟨?_, fun s => rfl, fun b => rfl, rfl, rfl, fun n => rfl, by decide, by decide⟩
  intro xs ys
  simp [joinArgs, List.filterMap_append, List.filterMap_cons, encArg]

/-- C5 (counterexample): on the example response the decoder does NOT
return the record with bare `MySSID` / `aa:bb:cc:dd:ee:ff` — the
surrounding double-quote characters are never stripped. -/
theorem c5Counterexample :
    parseConnection true c5Lines (str "+CWJAP_CUR:")
      ≠ Except.ok (ConnResult.record (str "MySSID") (str "aa:bb:cc:dd:ee:ff") 6 (-42)) := by
  have hval : parseConnection true c5Lines (str "+CWJAP_CUR:")
      = Except.ok (ConnResult.record (str "\"MySSID\"")
          (str "\"aa:bb:cc:dd:ee:ff\"") 6 (-42)) := rfl
  rw [hval]
  intro h
  rw [Except.ok.injEq] at h
  exact absurd h (by decide)

/-- C5 (amended): on the example response the decoder returns channel 6 and
rssi -42, and the ssid and bssid fields exactly as they appear between the
commas, i.e. still wrapped in their double-quote characters. -/
theorem c5Amended :
    parseConnection true c5Lines (str "+CWJAP_CUR:")
      = Except.ok (ConnResult.record (str "\"MySSID\"")
          (str "\"aa:bb:cc:dd:ee:ff\"") 6 (-42)) := rfl

theorem decodeSapCur_ok : ∀ (details : List Str) (r : ApConfig),
    decodeSapCur details = Except.ok (some r) →
    ∃ d5, details.get? 5 = some d5 ∧ r.hidden = !d5.isEmpty := by
  intro details r h
  rcases details with _ | ⟨d0, _ | ⟨d1, _ | ⟨d2, _ | ⟨d3, _ | ⟨d4, _ | ⟨d5, tail⟩⟩⟩⟩⟩⟩ <;>
    simp [decodeSapCur] at h
  rcases hch : pyInt d2 with _ | ch <;> rcases he : pyInt d3 with _ | e <;>
    rcases hmx : pyInt d4 with _ | mx <;> simp [hch, he, hmx] at h
  exact ⟨d5, rfl, by rw [← h]⟩

theorem decodeSapDef_ok : ∀ (details : List Str) (r : ApConfig),
    decodeSapDef details = Except.ok (some r) →
    ∃ d5, details.get? 5 = some d5 ∧ r.hidden = d5.isEmpty := by
  intro details r h
  rcases details with _ | ⟨d0, _ | ⟨d1, _ | ⟨d2, _ | ⟨d3, _ | ⟨d4, _ | ⟨d5, tail⟩⟩⟩⟩⟩⟩ <;>
    simp [decodeSapDef] at h
  rcases hch : pyInt d2 with _ | ch <;> rcases he : pyInt d3 with _ | e <;>
    rcases hmx : pyInt d4 with _ | mx <;> simp [hch, he, hmx] at h
  exact ⟨d5, rfl, by rw [← h]⟩

/-- C9 (confirmed): for any successful response whose matching line carries
the same comma-field content `c` for both variants, the `hidden` field
decoded by `getApConfig` is the boolean negation of the one decoded by
`getDefaultApConfig` — the polarities are inverted, not equal. -/
theorem c9Confirmed (c : Str) (r1 r2 : ApConfig)
    (h1 : getApConfig true [str "+CWSAP_CUR:" ++ c] = Except.ok (some r1))
    (h2 : getDefaultApConfig true [str "+CWSAP_DEF:" ++ c] = Except.ok (some r2)) :
    r1.hidden = !r2.hidden := by
  have e1 : getApConfig true [str "+CWSAP_CUR:" ++ c]
      = decodeSapCur (splitChar ',' (stripCRLF c)) := rfl
  have e2 : getDefaultApConfig true [str "+CWSAP_DEF:" ++ c]
      = decodeSapDef (splitChar ',' (stripCRLF c)) := rfl
  rw [e1] at h1
  rw [e2] at h2
  obtain ⟨d5, hg5, hh1⟩ := decodeSapCur_ok _ _ h1
  obtain ⟨d5', hg5', hh2⟩ := decodeSapDef_ok _ _ h2
  rw [hg5] at hg5'
  have hdd : d5 = d5' := by injection hg5'
  subst hdd
  rw [hh1, hh2]

theorem c9ConfirmedWitness :
    (⟨str "\"x\"", str "\"y\"", 1, 4, 4, true⟩ : ApConfig).hidden
      = !(⟨str "\"x\"", str "\"y\"", 1, 4, 4, false⟩ : ApConfig).hidden :=
  c9Confirmed (str "\"x\",\"y\",1,4,4,0")
    ⟨str "\"x\"", str "\"y\"", 1, 4, 4, true⟩
    ⟨str "\"x\"", str "\"y\"", 1, 4, 4, false⟩ rfl rfl

theorem splitChar_eq_single (sep : Char) : ∀ (l : Str),
    (∀ ch ∈ l, ch ≠ sep) → splitChar sep l = [l] := by
  intro l
  induction l with
  | nil => intro _; rfl
  | cons c cs ih =>
    intro h
    have hc : c ≠ sep := h c (by simp)
    have hcs : ∀ ch ∈ cs, ch ≠ sep := fun ch hch => h ch (by simp [hch])
    simp [splitChar, hc, ih hcs]

/-- C10 (confirmed): `getApConfig` derives `hidden` from the sixth
comma-field by string truthiness.  For any comma/CR/LF-free sixth field
`d5` (the first five fields fixed), a successful decode yields
`hidden = true` exactly when `d5` is non-empty — including the literal text
`0` — and `hidden = false` only for the empty field. -/
theorem c10Confirmed (d5 : Str) (r : ApConfig)
    (hclean : ∀ ch ∈ d5, ch ≠ ',' ∧ ch ≠ '\r' ∧ ch ≠ '\n')
    (h : getApConfig true [str "+CWSAP_CUR:\"s\",\"p\",1,4,4," ++ d5]
          = Except.ok (some r)) :
    r.hidden = !d5.isEmpty := by
  have e1 : getApConfig true [str "+CWSAP_CUR:\"s\",\"p\",1,4,4," ++ d5]
      = decodeSapCur (splitChar ',' (str "\"s\",\"p\",1,4,4," ++ stripCRLF d5)) := rfl
  rw [e1] at h
  have hstr : stripCRLF d5 = d5 := by
    unfold stripCRLF
    rw [List.filter_eq_self]
    intro a ha
    obtain ⟨-, h2, h3⟩ := hclean a ha
    simp [h2, h3]
  rw [hstr] at h
  have hdetails : splitChar ',' (str "\"s\",\"p\",1,4,4," ++ d5)
      = str "\"s\"" :: str "\"p\"" :: str "1" :: str "4" :: str "4"
          :: splitChar ',' d5 := rfl
  have hsplit : splitChar ',' d5 = [d5] :=
    splitChar_eq_single ',' d5 (fun ch hch => (hclean ch hch).1)
  rw [hdetails, hsplit] at h
  have hred : decodeSapCur [str "\"s\"", str "\"p\"", str "1", str "4", str "4", d5]
      = Except.ok (some ⟨str "\"s\"", str "\"p\"", 1, 4, 4, !d5.isEmpty⟩) := rfl
  rw [hred, Except.ok.injEq, Option.some.injEq] at h
  subst h
  rfl

theorem c10ConfirmedWitness :
    (⟨str "\"s\"", str "\"p\"", 1, 4, 4, true⟩ : ApConfig).hidden
      = !(str "0").isEmpty :=
  c10Confirmed (str "0") ⟨str "\"s\"", str "\"p\"", 1, 4, 4, true⟩
    (by decide) rfl

